import Mathlib

/-!
Shallow embedding of `sqla_yaml_fixtures.py` (version 0.3.0).

The embedding models the parsed YAML node tree as an inductive `Node`
(Python `str` / `int` / `bool` / `None` / `list` / `dict`, plus `obj`
for references to constructed model instances), model instances as a
heap of `Inst` records addressed by allocation index, the `Store` class
as an association list threaded through the computation, and the schema
introspection performed through SQLAlchemy (`getattr(model, name).property`,
`column.mapper.class_`, `column.back_populates`,
`ModelBase._decl_class_registry`) as an explicit `Registry` of per-model
field classifications.  Exceptions become an `Err` sum type; the
`except Exception` wrapper in `_create_obj`'s field loop becomes the
`Err.fieldError` constructor carrying the original error.  Python dict
mutation (`popitem`, `pop`, `value[back_populates] = obj`) is modelled
by explicit state passing: the functions return the post-state of the
mutated mappings alongside their results.
-/

namespace SYF

/-- Parsed YAML values plus references to constructed model instances
(`obj i` is the instance at heap index `i`). -/
inductive Node where
  | str (s : String)
  | int (n : Int)
  | bool (b : Bool)
  | null
  | list (xs : List Node)
  | map (m : List (String × Node))
  | obj (id : Nat)
deriving Repr

/-- A constructed model instance: its mapper name and its attribute map
(constructor keyword arguments plus later `setattr` updates). -/
structure Inst where
  model : String
  attrs : List (String × Node)
deriving Repr

/-- The heap of constructed instances; `Node.obj i` points at index `i`. -/
abbrev Heap := List Inst

/-- The `Store._store` dict: key to registered value. -/
abbrev StoreT := List (String × Node)

/-- Errors: `missingKey` is the `KeyError` from `Store.get`'s registry
lookup, `keyError` a `KeyError` from an ordinary dict access (`value['ref']`,
`popitem` on an empty dict, `_decl_class_registry[name]`), `attrError` an
`AttributeError`, `duplicateKey` the `assert` in `Store.put`, `noRelField`
the exception in `_get_rel_col_for`, `structural` a `ValueError` raised by
`load`, and `fieldError` the wrapping exception raised by `_create_obj`'s
per-field handler, carrying the model name, field name, offending value
and the original error. -/
inductive Err where
  | missingKey (k : String)
  | keyError (k : String)
  | attrError (a : String)
  | duplicateKey (k : String)
  | noRelField (src tgt : String)
  | structural (msg : String)
  | fieldError (model field : String) (value : Node) (orig : Err)
  | noFuel
deriving Repr

/-- First-match association-list lookup (Python dict indexing). -/
def alookup {α : Type} : List (String × α) → String → Option α
  | [], _ => none
  | (k', v) :: rest, k => if k' = k then some v else alookup rest k

/-- Python `d[k] = v`: update in place if the key exists, append otherwise. -/
def aset : List (String × Node) → String → Node → List (String × Node)
  | [], k, v => [(k, v)]
  | (k', v') :: rest, k, v =>
    if k' = k then (k', v) :: rest else (k', v') :: aset rest k v

/-- Python `d.pop(k, None)`: drop the binding of `k` (dicts bind a key once). -/
def aremove : List (String × Node) → String → List (String × Node)
  | [], _ => []
  | (k', v') :: rest, k => if k' = k then rest else (k', v') :: aremove rest k

/-- Splitting helper for `key.split('.')`. -/
def splitDotsAux : List Char → List Char → List String
  | [], cur => [String.mk cur.reverse]
  | c :: rest, cur =>
    if c = '.' then String.mk cur.reverse :: splitDotsAux rest []
    else splitDotsAux rest (c :: cur)

/-- `key.split('.')` from `Store.get`. -/
def splitDots (s : String) : List String := splitDotsAux s.toList []

/-- `getattr(ref_obj, part)`: attribute access on a constructed instance;
anything else fails with an `AttributeError`. -/
def getattrN (h : Heap) (v : Node) (a : String) : Except Err Node :=
  match v with
  | .obj i =>
    match h.get? i with
    | some inst =>
      match alookup inst.attrs a with
      | some w => .ok w
      | none => .error (.attrError a)
    | none => .error (.attrError a)
  | _ => .error (.attrError a)

/-- The `while parts:` loop of `Store.get`: chained attribute accesses. -/
def getattrChain (h : Heap) : Node → List String → Except Err Node
  | v, [] => .ok v
  | v, a :: rest =>
    match getattrN h v a with
    | .error e => .error e
    | .ok w => getattrChain h w rest

/-- `Store.get(key)`: split on dots, look up the first segment in the
registry dict (a `KeyError` on a missing key), then chain attribute
accesses for the remaining segments. -/
def storeGet (h : Heap) (s : StoreT) (key : String) : Except Err Node :=
  match splitDots key with
  | [] => .error (.missingKey key)
  | p :: rest =>
    match alookup s p with
    | none => .error (.missingKey p)
    | some v => getattrChain h v rest

/-- `Store.put(key, value)`: the `assert key not in self._store` fails on a
duplicate, otherwise the binding is appended. -/
def storePut (s : StoreT) (k : String) (v : Node) : Except Err StoreT :=
  match alookup s k with
  | some _ => .error (.duplicateKey k)
  | none => .ok (s ++ [(k, v)])

/-- Classification of a mapped attribute: a plain column
(`column.property` exists but is not a `RelationshipProperty`) or a
relationship carrying its target mapper name (`column.mapper.class_.__name__`)
and its `back_populates` field name. -/
inductive FieldKind where
  | scalarCol
  | rel (target : String) (backPopulates : String)
deriving Repr, DecidableEq

/-- A mapped class: its attributes with their classification, in
declaration order.  A name absent from the list is not introspectable
(`getattr(getattr(model, name), 'property')` raises `AttributeError`). -/
structure ModelDef where
  fields : List (String × FieldKind)
deriving Repr

/-- `ModelBase._decl_class_registry`: model name to model definition. -/
abbrev Registry := List (String × ModelDef)

/-- The scan inside `_get_rel_col_for`: first field whose relationship
target is the given name. -/
def findRelCol : List (String × FieldKind) → String → Option String
  | [], _ => none
  | (n, .rel t _) :: rest, target =>
    if t = target then some n else findRelCol rest target
  | (_, .scalarCol) :: rest, target => findRelCol rest target

/-- `_get_rel_col_for(src_model, target_model_name)`: the column of
`src_model` that is a relationship to the named target; fails when no
field matches. -/
def getRelColFor (m : ModelDef) (srcName target : String) : Except Err String :=
  match findRelCol m.fields target with
  | some n => .ok n
  | none => .error (.noRelField srcName target)

/-- `value.__class__.__name__` of a resolved store value. -/
def className (h : Heap) : Node → String
  | .str _ => "str"
  | .int _ => "int"
  | .bool _ => "bool"
  | .null => "NoneType"
  | .list _ => "list"
  | .map _ => "dict"
  | .obj i => ((h.get? i).map Inst.model).getD ""

/-- State threaded through the builder: the instance heap and the shared
`Store`. -/
structure S where
  heap : Heap
  store : StoreT
deriving Repr

/-- Accumulators of `_create_obj`'s field loop: the `scalars` dict, the
`nested` deferred builds (field name, related model name, `back_populates`
name, child field map — the field name is carried so the mutated child
map can be written back into the instance map), the `many` batches
(field name, allocated association-object ids), and the heap, which
grows when the `many` branch constructs association objects. -/
structure BAcc where
  scalars : List (String × Node)
  nested : List (String × String × String × List (String × Node))
  many : List (String × List Nat)
  heap : Heap
deriving Repr

/-- `value` must be a string before `Store.get` can split it
(`v.split('.')` raises `AttributeError` otherwise). -/
def asStr : Node → Except Err String
  | .str s => .ok s
  | _ => .error (.attrError "split")

/-- The list comprehension
`[rel_model(**{col_name: store.get(v)}) for v in value]`: resolve each
element and allocate one association instance per element, returning the
grown heap and the allocated ids in order. -/
def buildRefs (store : StoreT) (relName colName : String) :
    Heap → List Node → Except Err (Heap × List Nat)
  | h, [] => .ok (h, [])
  | h, v :: rest =>
    match asStr v with
    | .error e => .error e
    | .ok vs =>
      match storeGet h store vs with
      | .error e => .error e
      | .ok rv =>
        match buildRefs store relName colName
            (h ++ [⟨relName, [(colName, rv)]⟩]) rest with
        | .error e => .error e
        | .ok (h', ids) => .ok (h', h.length :: ids)

/-- One iteration of `_create_obj`'s field loop, without the wrapping
`except` handler.  Dispatch follows the source: a name that is not
introspectable goes to the `AttributeError` branch (a dict value is
resolved through `store.get(value['ref'])`, anything else passes
through); a plain column passes through; a relationship dispatches on
the value being a dict (deferred nested build), a string (store
reference), a list (many-to-many batch: resolve the first element to
discover the target mapper name, find the relating column on the
relationship's own target model, then build one association object per
element), or anything else (pass through). -/
def procFieldCore (reg : Registry) (store : StoreT) (mdef : ModelDef)
    (acc : BAcc) (name : String) (value : Node) : Except Err BAcc :=
  match alookup mdef.fields name with
  | none =>
    match value with
    | .map m =>
      match alookup m "ref" with
      | none => .error (.keyError "ref")
      | some rv =>
        match asStr rv with
        | .error e => .error e
        | .ok rs =>
          match storeGet acc.heap store rs with
          | .error e => .error e
          | .ok r => .ok { acc with scalars := acc.scalars ++ [(name, r)] }
    | _ => .ok { acc with scalars := acc.scalars ++ [(name, value)] }
  | some .scalarCol => .ok { acc with scalars := acc.scalars ++ [(name, value)] }
  | some (.rel target bp) =>
    match value with
    | .map m => .ok { acc with nested := acc.nested ++ [(name, target, bp, m)] }
    | .str s =>
      match storeGet acc.heap store s with
      | .error e => .error e
      | .ok r => .ok { acc with scalars := acc.scalars ++ [(name, r)] }
    | .list l =>
      match l with
      | [] => .ok acc
      | v0 :: _ =>
        match asStr v0 with
        | .error e => .error e
        | .ok s0 =>
          match storeGet acc.heap store s0 with
          | .error e => .error e
          | .ok tgtObj =>
            match alookup reg target with
            | none => .error (.keyError target)
            | some rm =>
              match getRelColFor rm target (className acc.heap tgtObj) with
              | .error e => .error e
              | .ok colName =>
                match buildRefs store target colName acc.heap l with
                | .error e => .error e
                | .ok (h', ids) =>
                  .ok { acc with heap := h', many := acc.many ++ [(name, ids)] }
    | _ => .ok { acc with scalars := acc.scalars ++ [(name, value)] }

/-- One iteration of the field loop with the `except Exception` handler:
any error is re-raised as a `fieldError` carrying the model name, the
field name and the offending value, with the original error inside. -/
def procField (reg : Registry) (store : StoreT) (mdef : ModelDef)
    (modelName : String) (acc : BAcc) (name : String) (value : Node) :
    Except Err BAcc :=
  match procFieldCore reg store mdef acc name value with
  | .error e => .error (.fieldError modelName name value e)
  | .ok a => .ok a

/-- The whole `for name, value in values.items():` loop. -/
def procFields (reg : Registry) (store : StoreT) (mdef : ModelDef)
    (modelName : String) : BAcc → List (String × Node) → Except Err BAcc
  | acc, [] => .ok acc
  | acc, (n, v) :: rest =>
    match procField reg store mdef modelName acc n v with
    | .error e => .error e
    | .ok acc' => procFields reg store mdef modelName acc' rest

/-- `setattr(obj, field_name, value_list)` on the instance at index `i`. -/
def setAttrHeap (h : Heap) (i : Nat) (name : String) (v : Node) : Heap :=
  match h.get? i with
  | none => h
  | some inst => h.set i ⟨inst.model, aset inst.attrs name v⟩

/-- `_create_obj(ModelBase, store, model_name, key, values)`.  Returns the
new state, the heap index of the constructed parent and the post-mutation
field map (the Python `values` dict after the nested children's maps,
aliased inside it, received their `back_populates` entries).  Order as in
the source: run the field loop (which already resolves and allocates the
many-to-many association objects), instantiate the parent from the
accumulated scalars, recursively create the nested children with the
parent injected under the `back_populates` name and no key of their own,
register the parent in the store when a truthy key was supplied, then
`setattr` each many-to-many batch onto the parent.  `fuel` bounds the
recursion depth. -/
def createObj (reg : Registry) : Nat → S → String → Option String →
    List (String × Node) → Except Err (S × Nat × List (String × Node))
  | 0, _, _, _, _ => .error .noFuel
  | fuel + 1, s, modelName, key, values =>
    match alookup reg modelName with
    | none => .error (.keyError modelName)
    | some mdef =>
      match procFields reg s.store mdef modelName ⟨[], [], [], s.heap⟩ values with
      | .error e => .error e
      | .ok acc =>
        let objId := acc.heap.length
        let heap1 := acc.heap ++ [⟨modelName, acc.scalars⟩]
        match acc.nested.foldlM
            (fun (p : S × List (String × Node)) item =>
              match item with
              | (fname, relName, bp, childMap) =>
                match createObj reg fuel p.1 relName none
                    (aset childMap bp (Node.obj objId)) with
                | .error e => (Except.error e : Except Err (S × List (String × Node)))
                | .ok (st', _, childMut) =>
                  Except.ok (st', aset p.2 fname (Node.map childMut)))
            (⟨heap1, s.store⟩, values) with
        | .error e => .error e
        | .ok (s1, values1) =>
          let putRes : Except Err StoreT :=
            match key with
            | some k =>
              if k = "" then .ok s1.store
              else storePut s1.store k (Node.obj objId)
            | none => .ok s1.store
          match putRes with
          | .error e => .error e
          | .ok store2 =>
            let heap2 := acc.many.foldl
              (fun h (fm : String × List Nat) =>
                setAttrHeap h objId fm.1 (Node.list (fm.2.map Node.obj)))
              s1.heap
            .ok (⟨heap2, store2⟩, objId, values1)

/-- The `for fields in instances:` loop of `load`: pop `__key__`, build
the object, hand it to `session.add`.  Returns the final state, the list
of added instance ids, the post-mutation instance maps, and the error
that stopped the loop, if any. -/
def loadInstances (reg : Registry) (fuel : Nat) (modelName : String) :
    S → List Nat → List Node → S × List Nat × List Node × Option Err
  | s, added, [] => (s, added, [], none)
  | s, added, inst :: rest =>
    match inst with
    | .map fields =>
      let keyOpt : Option String :=
        match alookup fields "__key__" with
        | some (.str k) => some k
        | _ => none
      let fields1 := aremove fields "__key__"
      match createObj reg fuel s modelName keyOpt fields1 with
      | .error e => (s, added, Node.map fields1 :: rest, some e)
      | .ok (s', objId, fieldsMut) =>
        match loadInstances reg fuel modelName s' (added ++ [objId]) rest with
        | (s'', added'', restMut, err) =>
          (s'', added'', Node.map fieldsMut :: restMut, err)
    | _ => (s, added, inst :: rest, some (.attrError "pop"))

/-- The `for model_entry in data:` loop of `load`.  Each entry dict is
destructured with `popitem()` (which pops the last binding and raises
`KeyError` on an empty dict); a `None` value skips the entry; a leftover
binding raises the extra-mapper `ValueError` naming the popped key; a
non-list value raises the sequence `ValueError`.  Returns the final
state, the added ids, the post-state of the entry dicts, the post-state
of the popped-out instance lists (the dict objects mutated by `pop` and
by the nested back-populates assignment), and the stopping error. -/
def loadEntries (reg : Registry) (fuel : Nat) :
    S → List Nat → List Node → S × List Nat × List Node × List Node × Option Err
  | s, added, [] => (s, added, [], [], none)
  | s, added, e :: rest =>
    match e with
    | .map m =>
      match m.getLast? with
      | none => (s, added, Node.map [] :: rest, [], some (.keyError "popitem"))
      | some (modelName, instances) =>
        let m1 := m.dropLast
        match instances with
        | .null =>
          match loadEntries reg fuel s added rest with
          | (s', a', restAfter, det, err) =>
            (s', a', Node.map m1 :: restAfter, det, err)
        | _ =>
          if m1.length > 0 then
            (s, added, Node.map m1 :: rest, [],
              some (.structural
                ("Sequence item must contain only one mapper," ++
                 " found extra `" ++ modelName ++ "`.")))
          else
            match instances with
            | .list insts =>
              match loadInstances reg fuel modelName s added insts with
              | (s', a', instsAfter, some e) =>
                (s', a', Node.map m1 :: rest, [Node.list instsAfter], some e)
              | (s', a', instsAfter, none) =>
                match loadEntries reg fuel s' a' rest with
                | (s'', a'', restAfter, det, err) =>
                  (s'', a'', Node.map m1 :: restAfter,
                   Node.list instsAfter :: det, err)
            | _ =>
              (s, added, Node.map m1 :: rest, [],
                some (.structural
                  ("`" ++ modelName ++ "` must contain a sequence(list).")))
    | _ => (s, added, e :: rest, [], some (.attrError "popitem"))

/-- Shape test used to state the field-dispatch theorems: Python's
`isinstance(value, dict)`. -/
def nodeIsMap : Node → Bool
  | .map _ => true
  | _ => false

/-- `load(ModelBase, session, fixture_text)` after the external parse:
the top level must be a list, then the entries are processed in order
against a fresh `Store`.  The components of the result are the final
state (heap and store), the ids handed to `session.add` in order, the
post-state of the top-level entry dicts, the post-state of the detached
instance lists, and the error that aborted the load, if any. -/
def load (reg : Registry) (fuel : Nat) (tree : Node) :
    S × List Nat × List Node × List Node × Option Err :=
  match tree with
  | .list entries => loadEntries reg fuel ⟨[], []⟩ [] entries
  | _ =>
    (⟨[], []⟩, [], [], [],
     some (.structural "Top level YAML should be sequence (list)."))

/-- Demo schema for concrete runs: `Tag` with a scalar `name`, the
association model `PTag` relating to `Tag` and to `P`, and `P` with a
scalar `name` and a to-many relationship `tags` targeting `PTag`. -/
def demoReg : Registry :=
  [("Tag", ⟨[("name", .scalarCol)]⟩),
   ("PTag", ⟨[("tag", .rel "Tag" "ptags"), ("p", .rel "P" "ptags")]⟩),
   ("P", ⟨[("name", .scalarCol), ("tags", .rel "PTag" "p")]⟩)]

/-- Demo heap: one constructed `Tag` instance at index 0. -/
def demoHeap : Heap := [⟨"Tag", [("name", .str "t1")]⟩]

/-- Demo store: the demo `Tag` registered under `"t1"`. -/
def demoStore : StoreT := [("t1", .obj 0)]

/-- Demo schema for inline-child runs: `A` with a to-many relationship
`children` targeting `B` back-populated by `parent`, and `B` with a
scalar `val` and the `parent` relationship back to `A`. -/
def nestReg : Registry :=
  [("A", ⟨[("children", .rel "B" "parent")]⟩),
   ("B", ⟨[("val", .scalarCol), ("parent", .rel "A" "children")]⟩)]

theorem get_append_len {α : Type} (l : List α) (x : α) :
    (l ++ [x]).get? l.length = some x := by
  induction l with
  | nil => rfl
  | cons a t ih => simp [ih]

theorem set_append_len {α : Type} (l : List α) (x y : α) :
    (l ++ [x]).set l.length y = l ++ [y] := by
  induction l with
  | nil => rfl
  | cons a t ih => simp [ih]

/-- The field loop processes a concatenation by processing the first part
and then the second from the accumulated state. -/
theorem procFields_append (reg : Registry) (store : StoreT) (mdef : ModelDef)
    (modelName : String) (l1 l2 : List (String × Node)) (acc : BAcc) :
    procFields reg store mdef modelName acc (l1 ++ l2) =
      match procFields reg store mdef modelName acc l1 with
      | .error e => .error e
      | .ok a => procFields reg store mdef modelName a l2 := by
  induction l1 generalizing acc with
  | nil => simp [procFields]
  | cons p t ih =>
    obtain ⟨n, v⟩ := p
    simp only [List.cons_append, procFields]
    cases procField reg store mdef modelName acc n v with
    | error e => rfl
    | ok a => exact ih a

/-- The association-object comprehension on a list of plain (dot-free)
keys that are all present in the store: it allocates one instance per
key, in order, each carrying the resolved store value under the column
found by the relation scan. -/
theorem buildRefs_plain (store : StoreT) (relName colName : String) :
    ∀ (ks : List String) (h : Heap),
    (∀ k ∈ ks, splitDots k = [k] ∧ (alookup store k).isSome) →
    buildRefs store relName colName h (ks.map Node.str) =
      .ok (h ++ ks.map
             (fun k => ⟨relName, [(colName, (alookup store k).getD Node.null)]⟩),
           List.range' h.length ks.length) := by
  intro ks
  induction ks with
  | nil => intro h _; simp [buildRefs, List.range']
  | cons k kt ih =>
    intro h hks
    obtain ⟨hsplit, hsome⟩ := hks k (List.mem_cons_self _ _)
    obtain ⟨v, hv⟩ := Option.isSome_iff_exists.mp hsome
    have hrec := ih (h ++ [⟨relName, [(colName, v)]⟩])
      (fun k' hk' => hks k' (List.mem_cons_of_mem _ hk'))
    simp only [List.map_cons, buildRefs, asStr, storeGet, hsplit, hv,
      getattrChain, hrec]
    simp [hv, List.range'_succ, List.append_assoc]

/-- `pure` of the `Except` monad is `Except.ok`; used to reduce the empty
nested-build fold. -/
theorem exceptPure_eq_ok {ε α : Type} (a : α) : (pure a : Except ε α) = Except.ok a := rfl

/-- Binding a successful `Except` computation applies the continuation;
used to reduce the nested-build fold. -/
theorem exceptBind_ok {ε α β : Type} (a : α) (g : α → Except ε β) :
    (Except.ok a >>= g : Except ε β) = g a := rfl

/-- C7: for every key already present in the Store, `Store.put` fails with
the duplicate-key error, and the first-inserted value for that key remains
retrievable via `Store.get` afterwards. -/
theorem store_put_duplicate (h : Heap) (s : StoreT) (k : String) (v w : Node)
    (hk : alookup s k = some w) (hd : splitDots k = [k]) :
    storePut s k v = .error (.duplicateKey k) ∧ storeGet h s k = .ok w := by
  constructor
  · simp [storePut, hk]
  · simp [storeGet, hd, hk, getattrChain]

/-- Witness for `store_put_duplicate` at a concrete store. -/
theorem store_put_duplicate_witness :
    storePut [("a", Node.int 1)] "a" (Node.int 2) =
      .error (.duplicateKey "a") ∧
    storeGet [] [("a", Node.int 1)] "a" = .ok (Node.int 1) :=
  store_put_duplicate [] [("a", Node.int 1)] "a" (Node.int 2) (Node.int 1)
    rfl rfl

/-- C3 counterexample: an Entry with two keys whose last binding has a
null value is skipped entirely — the load finishes with no error and no
structural failure, contradicting the claim that a more-than-one-key
Entry always fails regardless of the attached values. -/
theorem entry_two_keys_null_skipped_concrete :
    (load [] 1 (.list [.map [("A", .list [.map [("x", .int 1)]]),
                             ("B", .null)]])).2.2.2.2 = none := rfl

/-- C3 amended: an Entry with zero keys fails (the `popitem` `KeyError`)
before any instance is constructed or added, and an Entry with more than
one key whose last (popped) binding is non-null fails with the
structural error naming that popped key, again before any instance of
the Entry is constructed or added — but when the last binding's value is
null the whole Entry is skipped without error and the load continues. -/
theorem entry_key_count_validation (reg : Registry) (fuel : Nat) :
    (∀ rest, load reg fuel (.list (.map [] :: rest)) =
      (⟨[], []⟩, [], .map [] :: rest, [], some (.keyError "popitem"))) ∧
    (∀ (m0 : List (String × Node)) n2 v2 rest, m0 ≠ [] → v2 ≠ Node.null →
      load reg fuel (.list (.map (m0 ++ [(n2, v2)]) :: rest)) =
      (⟨[], []⟩, [], .map m0 :: rest, [],
       some (.structural ("Sequence item must contain only one mapper," ++
         " found extra `" ++ n2 ++ "`.")))) ∧
    (∀ (m0 : List (String × Node)) n2 rest s' a' ra det err,
      loadEntries reg fuel ⟨[], []⟩ [] rest = (s', a', ra, det, err) →
      load reg fuel (.list (.map (m0 ++ [(n2, Node.null)]) :: rest)) =
      (s', a', .map m0 :: ra, det, err)) := by
  refine ⟨fun rest => rfl, fun m0 n2 v2 rest hm0 hv2 => ?_, ?_⟩
  · have hlen : 0 < m0.length := List.length_pos.mpr hm0
    cases v2 <;> simp_all [load, loadEntries, List.getLast?_concat,
      List.dropLast_concat]
  · intro m0 n2 rest s' a' ra det err hrest
    simp [load, loadEntries, List.getLast?_concat, List.dropLast_concat, hrest]

/-- Witness for `entry_key_count_validation` at concrete entries. -/
theorem entry_key_count_validation_witness :
    (load [] 1 (.list [.map []]) =
      (⟨[], []⟩, [], [.map []], [], some (.keyError "popitem"))) ∧
    (load [] 1 (.list [.map [("A", .null), ("B", .int 1)]]) =
      (⟨[], []⟩, [], [.map [("A", .null)]], [],
       some (.structural ("Sequence item must contain only one mapper," ++
         " found extra `B`.")))) ∧
    (load [] 1 (.list [.map [("A", .list [.map [("x", .int 1)]]),
                             ("B", .null)]]) =
      (⟨[], []⟩, [], [.map [("A", .list [.map [("x", .int 1)]])]], [], none)) :=
  ⟨(entry_key_count_validation [] 1).1 [],
   (entry_key_count_validation [] 1).2.1 [("A", .null)] "B" (.int 1) []
     (by simp) (by simp),
   (entry_key_count_validation [] 1).2.2
     [("A", .list [.map [("x", .int 1)]])] "B" [] ⟨[], []⟩ [] [] [] none rfl⟩

/-- C1 counterexample: a keyed entry whose own many-to-many list contains
the entry's own key fails with the missing-key error wrapped in the
field-processing error — the reference is resolved by `Store.get` during
the field loop, before the parent has been registered, so the circular
self-reference does not resolve. -/
theorem m2m_self_reference_fails_concrete :
    load demoReg 2 (.list [.map [("P", .list
        [.map [("__key__", .str "p1"), ("tags", .list [.str "p1"])]])]]) =
      (⟨[], []⟩, [],
       [.map []],
       [.list [.map [("tags", .list [.str "p1"])]]],
       some (.fieldError "P" "tags" (.list [.str "p1"])
         (.missingKey "p1"))) := rfl

/-- C1 amended: the parent object is registered in the Store only before
the many-to-many batches are attached to the parent's field; the
reference strings inside the batch are resolved via `Store.get` during
the field loop, before the parent object is constructed or registered,
so a sequence element equal to the entry's own (not yet registered) key
fails with the missing-key error instead of resolving. -/
theorem m2m_self_reference_missing_key (reg : Registry) (fuel : Nat) (s : S)
    (modelName f target bp k : String) (mdef : ModelDef) (restL : List Node)
    (hm : alookup reg modelName = some mdef)
    (hf : alookup mdef.fields f = some (.rel target bp))
    (hk : splitDots k = [k])
    (hs : alookup s.store k = none) :
    createObj reg (fuel + 1) s modelName (some k)
        [(f, .list (.str k :: restL))] =
      .error (.fieldError modelName f (.list (.str k :: restL))
        (.missingKey k)) := by
  simp [createObj, hm, procFields, procField, procFieldCore, hf, asStr,
    storeGet, hk, hs]

/-- Witness for `m2m_self_reference_missing_key` on the demo schema. -/
theorem m2m_self_reference_missing_key_witness :
    createObj demoReg 1 ⟨[], []⟩ "P" (some "p1")
        [("tags", .list [.str "p1"])] =
      .error (.fieldError "P" "tags" (.list [.str "p1"])
        (.missingKey "p1")) :=
  m2m_self_reference_missing_key demoReg 0 ⟨[], []⟩ "P" "tags" "PTag" "p"
    "p1" ⟨[("name", .scalarCol), ("tags", .rel "PTag" "p")]⟩ [] rfl rfl rfl rfl

/-- C2 counterexample: `name` is a plain (non-relationship) column of the
demo model `P`, and a mapping value containing `ref` is passed to the
constructor unchanged — the constructed instance holds the raw mapping,
not the object stored under `"t1"` (`Node.obj 0`). -/
theorem scalar_ref_mapping_not_resolved_concrete :
    (createObj demoReg 1 ⟨demoHeap, demoStore⟩ "P" none
        [("name", .map [("ref", .str "t1")])] =
      .ok (⟨demoHeap ++ [⟨"P", [("name", .map [("ref", .str "t1")])]⟩],
            demoStore⟩, 1,
           [("name", .map [("ref", .str "t1")])])) ∧
    Node.map [("ref", .str "t1")] ≠ Node.obj 0 :=
  ⟨rfl, by simp⟩

/-- C2 amended: for a field classified as a plain (non-relationship)
column, every value — including a mapping containing `ref` — is passed
through unchanged as the constructor argument; the `Store.get(value['ref'])`
resolution applies only to field names that are not introspectable on the
model. -/
theorem scalar_ref_mapping_passed_through (reg : Registry) (fuel : Nat)
    (s : S) (modelName f : String) (mdef : ModelDef)
    (m : List (String × Node))
    (hm : alookup reg modelName = some mdef)
    (hf : alookup mdef.fields f = some .scalarCol) :
    createObj reg (fuel + 1) s modelName none [(f, .map m)] =
      .ok (⟨s.heap ++ [⟨modelName, [(f, .map m)]⟩], s.store⟩,
           s.heap.length, [(f, .map m)]) := by
  simp [createObj, hm, procFields, procField, procFieldCore, hf, exceptPure_eq_ok]

/-- Witness for `scalar_ref_mapping_passed_through` on the demo schema. -/
theorem scalar_ref_mapping_passed_through_witness :
    createObj demoReg 1 ⟨demoHeap, demoStore⟩ "P" none
        [("name", .map [("ref", .str "t1")])] =
      .ok (⟨demoHeap ++ [⟨"P", [("name", .map [("ref", .str "t1")])]⟩],
            demoStore⟩, 1,
           [("name", .map [("ref", .str "t1")])]) :=
  scalar_ref_mapping_passed_through demoReg 0 ⟨demoHeap, demoStore⟩ "P"
    "name" ⟨[("name", .scalarCol), ("tags", .rel "PTag" "p")]⟩
    [("ref", .str "t1")] rfl rfl

/-- C4 counterexample: `zzz` is not introspectable on the demo model `P`,
and a mapping value is not passed through — it is resolved through
`Store.get(value['ref'])`, so the constructed instance holds the stored
object `Node.obj 0`, not the raw mapping. -/
theorem raw_field_mapping_resolved_concrete :
    (createObj demoReg 1 ⟨demoHeap, demoStore⟩ "P" none
        [("zzz", .map [("ref", .str "t1")])] =
      .ok (⟨demoHeap ++ [⟨"P", [("zzz", .obj 0)]⟩], demoStore⟩, 1,
           [("zzz", .map [("ref", .str "t1")])])) ∧
    Node.obj 0 ≠ Node.map [("ref", .str "t1")] :=
  ⟨rfl, by simp⟩

/-- C4 amended: for a field name that is not introspectable on the model,
a scalar, string or sequence value is passed through unchanged as a raw
constructor keyword argument, while a mapping value is instead resolved
through `Store.get(value['ref'])` and the resolved stored object is
passed. -/
theorem raw_field_passthrough (reg : Registry) (fuel : Nat) (s : S)
    (modelName f : String) (mdef : ModelDef) (value : Node)
    (hm : alookup reg modelName = some mdef)
    (hf : alookup mdef.fields f = none) :
    (nodeIsMap value = false →
      createObj reg (fuel + 1) s modelName none [(f, value)] =
        .ok (⟨s.heap ++ [⟨modelName, [(f, value)]⟩], s.store⟩,
             s.heap.length, [(f, value)])) ∧
    (∀ (m : List (String × Node)) (r : String) (rv : Node),
      value = .map m → alookup m "ref" = some (.str r) →
      splitDots r = [r] → alookup s.store r = some rv →
      createObj reg (fuel + 1) s modelName none [(f, value)] =
        .ok (⟨s.heap ++ [⟨modelName, [(f, rv)]⟩], s.store⟩,
             s.heap.length, [(f, value)])) := by
  constructor
  · intro hnm
    cases value <;> simp_all [createObj, hm, procFields, procField,
      procFieldCore, hf, nodeIsMap, exceptPure_eq_ok]
  · intro m r rv hv href hsplit hstore
    subst hv
    simp [createObj, hm, procFields, procField, procFieldCore, hf, href,
      asStr, storeGet, hsplit, hstore, getattrChain, exceptPure_eq_ok]

/-- Witness for `raw_field_passthrough` on the demo schema: an integer
passes through and a `ref` mapping resolves to the stored object. -/
theorem raw_field_passthrough_witness :
    (createObj demoReg 1 ⟨demoHeap, demoStore⟩ "P" none
        [("zzz", .int 5)] =
      .ok (⟨demoHeap ++ [⟨"P", [("zzz", .int 5)]⟩], demoStore⟩, 1,
           [("zzz", .int 5)])) ∧
    (createObj demoReg 1 ⟨demoHeap, demoStore⟩ "P" none
        [("zzz", .map [("ref", .str "t1")])] =
      .ok (⟨demoHeap ++ [⟨"P", [("zzz", .obj 0)]⟩], demoStore⟩, 1,
           [("zzz", .map [("ref", .str "t1")])])) :=
  ⟨(raw_field_passthrough demoReg 0 ⟨demoHeap, demoStore⟩ "P" "zzz"
      ⟨[("name", .scalarCol), ("tags", .rel "PTag" "p")]⟩ (.int 5)
      rfl rfl).1 rfl,
   (raw_field_passthrough demoReg 0 ⟨demoHeap, demoStore⟩ "P" "zzz"
      ⟨[("name", .scalarCol), ("tags", .rel "PTag" "p")]⟩
      (.map [("ref", .str "t1")]) rfl rfl).2
     [("ref", .str "t1")] "t1" (.obj 0) rfl rfl rfl rfl⟩

/-- Setting an attribute on the instance just appended to the heap. -/
theorem setAttrHeap_append (h : Heap) (x : Inst) (name : String) (v : Node) :
    setAttrHeap (h ++ [x]) h.length name v =
      h ++ [⟨x.model, aset x.attrs name v⟩] := by
  simp [setAttrHeap, get_append_len, set_append_len]

/-- C5: a `RelationToMany` field holding a non-empty sequence of `n` plain
reference strings, each naming a previously stored object, makes the
builder synthesize exactly `n` association objects — one per element, in
order, each an instance of the relationship's own target model carrying
the column found by the relation scan set to the corresponding resolved
stored object — and attach the collection of the `n` new instances to the
parent's field; an empty sequence creates no association objects and
leaves the field untouched. -/
theorem m2m_batch_synthesis (reg : Registry) (fuel : Nat) (s : S)
    (modelName f target bp colName : String) (mdef rm : ModelDef)
    (ks : List String)
    (hm : alookup reg modelName = some mdef)
    (hf : alookup mdef.fields f = some (.rel target bp))
    (hks : ∀ k ∈ ks, splitDots k = [k] ∧ (alookup s.store k).isSome)
    (hne : ks ≠ [])
    (hreg : alookup reg target = some rm)
    (hcol : getRelColFor rm target
        (className s.heap ((alookup s.store ks.headI).getD Node.null)) =
      .ok colName) :
    (createObj reg (fuel + 1) s modelName none [(f, .list (ks.map .str))] =
      .ok (⟨s.heap
             ++ ks.map (fun k =>
                  ⟨target, [(colName, (alookup s.store k).getD Node.null)]⟩)
             ++ [⟨modelName,
                  [(f, .list ((List.range' s.heap.length ks.length).map
                       Node.obj))]⟩],
            s.store⟩,
           s.heap.length + ks.length,
           [(f, .list (ks.map .str))])) ∧
    ((List.range' s.heap.length ks.length).map Node.obj).length = ks.length ∧
    (createObj reg (fuel + 1) s modelName none [(f, .list [])] =
      .ok (⟨s.heap ++ [⟨modelName, []⟩], s.store⟩, s.heap.length,
           [(f, .list [])])) := by
  refine ⟨?_, by simp, ?_⟩
  · cases ks with
    | nil => exact absurd rfl hne
    | cons k0 kt =>
      obtain ⟨hsp0, hsome0⟩ := hks k0 (List.mem_cons_self _ _)
      obtain ⟨v0, hv0⟩ := Option.isSome_iff_exists.mp hsome0
      have hbuild := buildRefs_plain s.store target colName (k0 :: kt) s.heap hks
      simp only [List.map_cons] at hbuild
      simp only [List.headI, hv0, Option.getD] at hcol
      simp only [createObj, hm, procFields, procField, procFieldCore, hf,
        List.map_cons, asStr, storeGet, hsp0, hv0, getattrChain, hreg, hcol,
        hbuild, exceptPure_eq_ok, List.foldlM, List.foldl, setAttrHeap_append,
        aset]
      simp [hv0, List.range'_succ, List.append_assoc]
  · simp [createObj, hm, procFields, procField, procFieldCore, hf,
      exceptPure_eq_ok]

/-- Witness for `m2m_batch_synthesis` on the demo schema with two stored
tags: two association objects are allocated at indices 1 and 2 and the
parent at index 3 holds them as a collection of size 2. -/
theorem m2m_batch_synthesis_witness :
    (createObj demoReg 1
        ⟨demoHeap ++ [⟨"Tag", [("name", .str "t2")]⟩],
         demoStore ++ [("t2", .obj 1)]⟩ "P" none
        [("tags", .list [.str "t1", .str "t2"])] =
      .ok (⟨demoHeap ++ [⟨"Tag", [("name", .str "t2")]⟩]
             ++ ["t1", "t2"].map (fun k =>
                  ⟨"PTag", [("tag", (alookup (demoStore ++ [("t2", .obj 1)]) k).getD
                      Node.null)]⟩)
             ++ [⟨"P", [("tags", .list ((List.range' 2 2).map Node.obj))]⟩],
            demoStore ++ [("t2", .obj 1)]⟩,
           4,
           [("tags", .list [.str "t1", .str "t2"])])) ∧
    ((List.range' 2 2).map Node.obj).length = 2 ∧
    (createObj demoReg 1
        ⟨demoHeap ++ [⟨"Tag", [("name", .str "t2")]⟩],
         demoStore ++ [("t2", .obj 1)]⟩ "P" none
        [("tags", .list [])] =
      .ok (⟨demoHeap ++ [⟨"Tag", [("name", .str "t2")]⟩] ++ [⟨"P", []⟩],
            demoStore ++ [("t2", .obj 1)]⟩, 2, [("tags", .list [])])) :=
  m2m_batch_synthesis demoReg 0
    (S.mk (demoHeap ++ [Inst.mk "Tag" [("name", Node.str "t2")]])
      (demoStore ++ [("t2", Node.obj 1)])) "P" "tags" "PTag" "p" "tag"
    (ModelDef.mk [("name", FieldKind.scalarCol), ("tags", FieldKind.rel "PTag" "p")])
    (ModelDef.mk [("tag", FieldKind.rel "Tag" "ptags"), ("p", FieldKind.rel "P" "ptags")])
    ["t1", "t2"] rfl rfl
    (by intro k hk; fin_cases hk <;> exact ⟨rfl, rfl⟩)
    (by simp) rfl rfl

/-- Shared computation: building a parent with one inline child mapping
under a relationship field.  The parent is instantiated first, the child
mapping gains the `back_populates` binding pointing at the parent's heap
index, the child is then built recursively with no key, and only the
parent is registered in the store. -/
theorem createObj_inline_child (reg : Registry) (fuel : Nat) (s : S)
    (modelName f childModel bp cf bpT bpI k : String)
    (mdef cmdef : ModelDef) (v : Node)
    (hm : alookup reg modelName = some mdef)
    (hf : alookup mdef.fields f = some (.rel childModel bp))
    (hc : alookup reg childModel = some cmdef)
    (hcf : alookup cmdef.fields cf = some .scalarCol)
    (hbp : alookup cmdef.fields bp = some (.rel bpT bpI))
    (hne : cf ≠ bp)
    (hknotin : alookup s.store k = none) (hkne : k ≠ "") :
    createObj reg (fuel + 2) s modelName (some k) [(f, .map [(cf, v)])] =
      .ok (⟨s.heap ++ [⟨modelName, []⟩,
                       ⟨childModel, [(cf, v), (bp, .obj s.heap.length)]⟩],
            s.store ++ [(k, .obj s.heap.length)]⟩,
           s.heap.length,
           [(f, .map [(cf, v), (bp, .obj s.heap.length)])]) := by
  simp [createObj, hm, hc, procFields, procField, procFieldCore, hf, hcf,
    hbp, exceptPure_eq_ok, exceptBind_ok, aset, hne, List.foldlM, storePut,
    hknotin, hkne]

/-- C6: a relationship field given an inline mapping defers the child:
the child is constructed only after the parent instance exists (it
occupies the next heap slot after the parent), the `back_populates`
field in the child's mapping is set to the exact parent instance, the
recursive build runs with no key, and afterwards the Store has gained
exactly the parent's binding — the child is not retrievable by name. -/
theorem inline_child_build (reg : Registry) (fuel : Nat) (s : S)
    (modelName f childModel bp cf bpT bpI k : String)
    (mdef cmdef : ModelDef) (v : Node)
    (hm : alookup reg modelName = some mdef)
    (hf : alookup mdef.fields f = some (.rel childModel bp))
    (hc : alookup reg childModel = some cmdef)
    (hcf : alookup cmdef.fields cf = some .scalarCol)
    (hbp : alookup cmdef.fields bp = some (.rel bpT bpI))
    (hne : cf ≠ bp)
    (hknotin : alookup s.store k = none) (hkne : k ≠ "") :
    createObj reg (fuel + 2) s modelName (some k) [(f, .map [(cf, v)])] =
      .ok (⟨s.heap ++ [⟨modelName, []⟩,
                       ⟨childModel, [(cf, v), (bp, .obj s.heap.length)]⟩],
            s.store ++ [(k, .obj s.heap.length)]⟩,
           s.heap.length,
           [(f, .map [(cf, v), (bp, .obj s.heap.length)])]) :=
  createObj_inline_child reg fuel s modelName f childModel bp cf bpT bpI k
    mdef cmdef v hm hf hc hcf hbp hne hknotin hkne

/-- Witness for `inline_child_build` on the nested demo schema. -/
theorem inline_child_build_witness :
    createObj nestReg 2 ⟨[], []⟩ "A" (some "a1")
        [("children", .map [("val", .int 7)])] =
      .ok (⟨[⟨"A", []⟩, ⟨"B", [("val", .int 7), ("parent", .obj 0)]⟩],
            [("a1", .obj 0)]⟩,
           0,
           [("children", .map [("val", .int 7), ("parent", .obj 0)])]) :=
  inline_child_build nestReg 0 ⟨[], []⟩ "A" "children" "B" "parent" "val"
    "A" "children" "a1"
    ⟨[("children", .rel "B" "parent")]⟩
    ⟨[("val", .scalarCol), ("parent", .rel "A" "children")]⟩
    (.int 7) rfl rfl rfl rfl rfl (by decide) rfl (by decide)

/-- C8: references resolve only against keys registered earlier in the
sequence — an entry whose relationship field names a key that is first
declared by a later entry makes the load fail with the missing-key error
(wrapped in the field-processing context) while the state is still
empty: declaration order is load order and references are not
pre-resolved across the tree. -/
theorem forward_reference_fails (reg : Registry) (fuel : Nat)
    (mA mB f bp k : String) (mdefB : ModelDef)
    (hB : alookup reg mB = some mdefB)
    (hf : alookup mdefB.fields f = some (.rel mA bp))
    (hfk : f ≠ "__key__")
    (hk : splitDots k = [k]) :
    load reg (fuel + 1) (.list
      [.map [(mB, .list [.map [(f, .str k)]])],
       .map [(mA, .list [.map [("__key__", .str k)]])]]) =
      (⟨[], []⟩, [],
       [.map [], .map [(mA, .list [.map [("__key__", .str k)]])]],
       [.list [.map [(f, .str k)]]],
       some (.fieldError mB f (.str k) (.missingKey k))) := by
  simp [load, loadEntries, loadInstances, alookup, hfk, aremove,
    createObj, hB, procFields, procField, procFieldCore, hf, asStr,
    storeGet, hk]

/-- Witness for `forward_reference_fails` on a two-model schema. -/
theorem forward_reference_fails_witness :
    load [("A", ⟨[]⟩), ("B", ⟨[("a", .rel "A" "bs")]⟩)] 1 (.list
      [.map [("B", .list [.map [("a", .str "k1")]])],
       .map [("A", .list [.map [("__key__", .str "k1")]])]]) =
      (⟨[], []⟩, [],
       [.map [], .map [("A", .list [.map [("__key__", .str "k1")]])]],
       [.list [.map [("a", .str "k1")]]],
       some (.fieldError "B" "a" (.str "k1") (.missingKey "k1"))) :=
  forward_reference_fails [("A", ⟨[]⟩), ("B", ⟨[("a", .rel "A" "bs")]⟩)] 0
    "A" "B" "a" "bs" "k1" ⟨[("a", .rel "A" "bs")]⟩ rfl rfl (by decide) rfl

/-- C9: an error raised while processing one specific field of a build is
caught and re-raised as the field-processing error carrying the model
name, the field name and the offending value, with the original error
preserved inside it. -/
theorem field_error_wrapping (reg : Registry) (fuel : Nat) (s : S)
    (modelName n : String) (key : Option String) (mdef : ModelDef)
    (pre rest : List (String × Node)) (v : Node) (acc : BAcc) (e : Err)
    (hm : alookup reg modelName = some mdef)
    (hpre : procFields reg s.store mdef modelName ⟨[], [], [], s.heap⟩ pre =
      .ok acc)
    (herr : procFieldCore reg s.store mdef acc n v = .error e) :
    createObj reg (fuel + 1) s modelName key (pre ++ (n, v) :: rest) =
      .error (.fieldError modelName n v e) := by
  have h2 : procFields reg s.store mdef modelName ⟨[], [], [], s.heap⟩
      (pre ++ (n, v) :: rest) = .error (.fieldError modelName n v e) := by
    rw [procFields_append, hpre]
    simp [procFields, procField, herr]
  simp [createObj, hm, h2]

/-- Witness for `field_error_wrapping`: a dangling reference string under
the relationship field `tags` is reported as a field-processing error
naming `P`, `tags` and the value, with the missing-key error inside. -/
theorem field_error_wrapping_witness :
    createObj demoReg 1 ⟨demoHeap, demoStore⟩ "P" none
        [("tags", .str "nope")] =
      .error (.fieldError "P" "tags" (.str "nope") (.missingKey "nope")) :=
  field_error_wrapping demoReg 0 ⟨demoHeap, demoStore⟩ "P" "tags" none
    ⟨[("name", .scalarCol), ("tags", .rel "PTag" "p")]⟩ [] []
    (.str "nope") ⟨[], [], [], demoHeap⟩ (.missingKey "nope") rfl rfl rfl

/-- Whatever branch the entry loop takes on a mapping entry, the entry's
post-state has lost its last binding (the `popitem`). -/
theorem loadEntries_map_head_dropLast (reg : Registry) (fuel : Nat) (s : S)
    (added : List Nat) (m : List (String × Node)) (rest : List Node) :
    ∃ tail, (loadEntries reg fuel s added (Node.map m :: rest)).2.2.1 =
      Node.map m.dropLast :: tail := by
  cases hm : m.getLast? with
  | none =>
    have hnil : m = [] := by
      cases m with
      | nil => rfl
      | cons a l => simp at hm
    subst hnil
    exact ⟨rest, rfl⟩
  | some p =>
    obtain ⟨mn, inst⟩ := p
    cases inst with
    | null =>
      rcases hrec : loadEntries reg fuel s added rest with ⟨s', a', ra, det, err⟩
      exact ⟨ra, by simp [loadEntries, hm, hrec]⟩
    | list insts =>
      by_cases hlen : 1 < m.length
      · exact ⟨rest, by simp [loadEntries, hm, hlen]⟩
      · rcases hli : loadInstances reg fuel mn s added insts with ⟨s', a', ia, err⟩
        cases err with
        | some e => exact ⟨rest, by simp [loadEntries, hm, hlen, hli]⟩
        | none =>
          rcases hrec : loadEntries reg fuel s' a' rest with ⟨s'', a'', ra, det, err'⟩
          exact ⟨ra, by simp [loadEntries, hm, hlen, hli, hrec]⟩
    | str x =>
      exact ⟨rest, by by_cases hlen : 1 < m.length <;>
        simp [loadEntries, hm, hlen]⟩
    | int x =>
      exact ⟨rest, by by_cases hlen : 1 < m.length <;>
        simp [loadEntries, hm, hlen]⟩
    | bool x =>
      exact ⟨rest, by by_cases hlen : 1 < m.length <;>
        simp [loadEntries, hm, hlen]⟩
    | map mm =>
      exact ⟨rest, by by_cases hlen : 1 < m.length <;>
        simp [loadEntries, hm, hlen]⟩
    | obj i =>
      exact ⟨rest, by by_cases hlen : 1 < m.length <;>
        simp [loadEntries, hm, hlen]⟩

/-- C10: the load consumes the node tree — every processed Entry mapping
loses its popped (model-name) binding, and on a representative keyed
entry with an inline child the processed Instance mapping has lost its
`__key__` binding while the inline-child mapping has gained the
`back_populates` binding pointing at the parent instance; the mutated
post-states are what the load leaves behind. -/
theorem load_mutates_tree (reg : Registry) (fuel : Nat)
    (mn f childModel bp cf bpT bpI k : String) (mdef cmdef : ModelDef)
    (v : Node)
    (hm : alookup reg mn = some mdef)
    (hf : alookup mdef.fields f = some (.rel childModel bp))
    (hc : alookup reg childModel = some cmdef)
    (hcf : alookup cmdef.fields cf = some .scalarCol)
    (hbp : alookup cmdef.fields bp = some (.rel bpT bpI))
    (hne : cf ≠ bp) (hkne : k ≠ "") :
    (∀ (s : S) (added : List Nat) (m : List (String × Node))
       (rest : List Node),
      ∃ tail, (loadEntries reg fuel s added (Node.map m :: rest)).2.2.1 =
        Node.map m.dropLast :: tail) ∧
    load reg (fuel + 2) (.list [.map [(mn, .list
        [.map [("__key__", .str k), (f, .map [(cf, v)])]])]]) =
      (⟨[⟨mn, []⟩, ⟨childModel, [(cf, v), (bp, .obj 0)]⟩], [(k, .obj 0)]⟩,
       [0],
       [.map []],
       [.list [.map [(f, .map [(cf, v), (bp, .obj 0)])]]],
       none) := by
  constructor
  · intro s added m rest
    exact loadEntries_map_head_dropLast reg fuel s added m rest
  · have hco := createObj_inline_child reg fuel ⟨[], []⟩ mn f childModel bp
      cf bpT bpI k mdef cmdef v hm hf hc hcf hbp hne rfl hkne
    simp only [List.nil_append] at hco
    simp [load, loadEntries, loadInstances, alookup, aremove, hco]

/-- Witness for `load_mutates_tree` on the nested demo schema: the entry
mapping is left empty, the instance mapping has lost `__key__`, and the
child mapping has gained `parent ↦ obj 0`. -/
theorem load_mutates_tree_witness :
    (∃ tail, (loadEntries nestReg 0 ⟨[], []⟩ []
        [Node.map [("A", Node.null)]]).2.2.1 = Node.map [] :: tail) ∧
    load nestReg 2 (.list [.map [("A", .list
        [.map [("__key__", .str "a1"), ("children", .map [("val", .int 7)])]])]]) =
      (⟨[⟨"A", []⟩, ⟨"B", [("val", .int 7), ("parent", .obj 0)]⟩],
        [("a1", .obj 0)]⟩,
       [0],
       [.map []],
       [.list [.map [("children", .map [("val", .int 7), ("parent", .obj 0)])]]],
       none) :=
  ⟨(load_mutates_tree nestReg 0 "A" "children" "B" "parent" "val" "A"
      "children" "a1"
      (ModelDef.mk [("children", FieldKind.rel "B" "parent")])
      (ModelDef.mk [("val", FieldKind.scalarCol),
                    ("parent", FieldKind.rel "A" "children")])
      (Node.int 7) rfl rfl rfl rfl rfl (by decide) (by decide)).1
      ⟨[], []⟩ [] [("A", Node.null)] [],
   (load_mutates_tree nestReg 0 "A" "children" "B" "parent" "val" "A"
      "children" "a1"
      (ModelDef.mk [("children", FieldKind.rel "B" "parent")])
      (ModelDef.mk [("val", FieldKind.scalarCol),
                    ("parent", FieldKind.rel "A" "children")])
      (Node.int 7) rfl rfl rfl rfl rfl (by decide) (by decide)).2⟩

end SYF
